import Mathlib

/-!
Verification development for the `jsonstream` repository (`src/jsonstream.py`):
an incremental decoder for streams of concatenated JSON documents separated by
whitespace or a fixed literal separator.

Strings from the Python source are modelled as `List Char`; the pull-based
source (a file-like object) is modelled as the list of characters not yet
read, with `read n` returning the first `min n remaining` characters.  The
external single-document parser (Python's `json.JSONDecoder.raw_decode`,
which is not part of this repository) is modelled from the spec, mirroring
the behaviour of CPython's `json.decoder`/`json.scanner` pure-Python
implementation with the default hooks.
-/

namespace JsonStream

/-- A decoded JSON value.  Floats are represented by their source lexeme
(the spec treats decoded values as opaque apart from the numeric-type
classification, so the exact float arithmetic is irrelevant); `NaN`,
`Infinity` and `-Infinity` are the float constants the Python decoder
produces for the extended keywords. -/
inductive JValue where
  | jnull : JValue
  | jbool : Bool → JValue
  | jint : Int → JValue
  | jfloat : List Char → JValue
  | jstr : List Char → JValue
  | jarr : List JValue → JValue
  | jobj : List (List Char × JValue) → JValue

/-- A structured decode error: `json.JSONDecodeError(msg, doc, pos)`. -/
structure JErr where
  msg : List Char
  doc : List Char
  pos : Nat
  deriving DecidableEq

/-- A failure that terminates a decode session.  `decodeErr e off?` is a
`JSONDecodeError`; `off? = some k` when the streaming engine enriched it with
`stream_offset = k` (`_update_error`), `none` for the non-streaming `loads`
path.  `valueErr` is a Python `ValueError` (delimiter mismatch, bufsize
validation, max buffer size exceeded), which the engine never enriches.
`typeErr` is a `TypeError`, `unicodeErr` a `UnicodeDecodeError`.
`fuelExhausted` is the model's recursion cutoff; it never arises on the
concrete runs below (every run is given ample fuel). -/
inductive Failure where
  | decodeErr : JErr → Option Nat → Failure
  | valueErr : List Char → Failure
  | typeErr : List Char → Failure
  | unicodeErr : Failure
  | fuelExhausted : Failure
  deriving DecidableEq

/-- The whitespace class of CPython's json parser (`_ws = " \t\n\r"`). -/
def jsonWS (c : Char) : Bool :=
  c == ' ' || c == '\t' || c == '\n' || c == '\r'

/-- Whitespace as Python's regex `\S` complement / `str.isspace` sees it,
restricted to ASCII (the Unicode space characters are not modelled; no input
in this development contains them). -/
def isPySpace (c : Char) : Bool :=
  c == ' ' || c == '\t' || c == '\n' || c == '\r' ||
    c == '\x0b' || c == '\x0c'

/-- `s[i]` as a partial lookup (`none` models Python's `IndexError` /
the empty slice `s[i:i+1] == ""`). -/
def charAt (s : List Char) (i : Nat) : Option Char := s.get? i

/-- `WHITESPACE.match(s, i).end()`: the first index `≥ i` holding a
non-`_ws` character, or `s.length` when only whitespace remains. -/
def skipWS (s : List Char) (i : Nat) : Nat :=
  match (s.drop i).findIdx? (fun c => !jsonWS c) with
  | some k => i + k
  | none => s.length

/-- `s[i:i+lit.length] == lit`. -/
def sliceEq (s : List Char) (i : Nat) (lit : List Char) : Bool :=
  ((s.drop i).take lit.length) == lit

/-- The keyword table of `jsonstream.KEYWORDS`. -/
def KEYWORDS : List (List Char) :=
  ["null".toList, "true".toList, "false".toList,
   "NaN".toList, "Infinity".toList, "-Infinity".toList]

/-- `MAX_KEYWORD_LEN = max(len(keyword) for keyword in KEYWORDS)`. -/
def MAX_KEYWORD_LEN : Nat := (KEYWORDS.map List.length).foldl Nat.max 0

/-- The end of the maximal run of ASCII digits starting at `i`. -/
def digitRunEnd (s : List Char) (i : Nat) : Nat :=
  match (s.drop i).findIdx? (fun c => !c.isDigit) with
  | some k => i + k
  | none => s.length

/-- Modelled from the spec: the number regex of the external parser,
`(-?(?:0|[1-9]\d*))(\.\d+)?([eE][-+]?\d+)?` matched at `idx`.  Returns
`(isFloat, endIdx)` on a match (`isFloat` iff a fraction or exponent part
matched), `none` when the regex does not match at `idx`. -/
def matchNumber (s : List Char) (idx : Nat) : Option (Bool × Nat) :=
  let i := if charAt s idx == some '-' then idx + 1 else idx
  let intEnd? : Option Nat :=
    match charAt s i with
    | none => none
    | some c =>
      if c == '0' then some (i + 1)
      else if c.isDigit then some (digitRunEnd s (i + 1))
      else none
  match intEnd? with
  | none => none
  | some intEnd =>
    let fracEnd :=
      if charAt s intEnd == some '.' &&
          (charAt s (intEnd + 1)).any Char.isDigit then
        some (digitRunEnd s (intEnd + 2))
      else none
    let afterFrac := fracEnd.getD intEnd
    let expEnd :=
      if (charAt s afterFrac == some 'e' || charAt s afterFrac == some 'E') then
        let j := afterFrac + 1
        let j := if charAt s j == some '-' || charAt s j == some '+' then j + 1
                 else j
        if (charAt s j).any Char.isDigit then some (digitRunEnd s (j + 1))
        else none
      else none
    let endIdx := expEnd.getD afterFrac
    some (fracEnd.isSome || expEnd.isSome, endIdx)

/-- The integer value of a decimal lexeme with an optional leading minus. -/
def intOfLexeme (lex : List Char) : Int :=
  match lex with
  | '-' :: ds => -(ds.foldl (fun a c => a * 10 + (c.toNat - 48)) 0 : Int)
  | ds => (ds.foldl (fun a c => a * 10 + (c.toNat - 48)) 0 : Int)

/-- The escape table `BACKSLASH` of the external parser, as a lookup. -/
def BACKSLASH : List (Char × Char) :=
  [('"', '"'), ('\\', '\\'), ('/', '/'), ('b', '\x08'),
   ('f', '\x0c'), ('n', '\n'), ('r', '\r'), ('t', '\t')]

/-- `BACKSLASH[esc]`, `None` modelling the `KeyError`. -/
def backslashChar (c : Char) : Option Char :=
  (BACKSLASH.find? (fun p => p.1 == c)).map Prod.snd

def hexVal (c : Char) : Option Nat :=
  if c.isDigit then some (c.toNat - 48)
  else if 'a' ≤ c && c ≤ 'f' then some (c.toNat - 87)
  else if 'A' ≤ c && c ≤ 'F' then some (c.toNat - 55)
  else none

/-- Modelled from the spec: `py_scanstring(s, start)` of the external parser
with `strict=True`.  `start` is the index just past the opening quote.
Simplifications (never exercised by this development's inputs): the
`Invalid control character {c!r} at` and `Invalid \escape: {c!r}` messages
drop the repr of the offending character, `\uXXXX` escapes do not join
surrogate pairs. -/
def scanStringGo (s : List Char) (begin_ : Nat) :
    Nat → Nat → List Char → Except JErr (List Char × Nat)
  | 0, _, _ => .error ⟨"fuel exhausted".toList, s, begin_⟩
  | fuel + 1, i, acc =>
    match (s.drop i).findIdx?
        (fun c => c == '"' || c == '\\' || c.toNat < 0x20) with
    | none => .error ⟨"Unterminated string starting at".toList, s, begin_⟩
    | some k =>
      let t := i + k
      let content := (s.drop i).take k
      let acc := acc ++ content
      match charAt s t with
      | some '"' => .ok (acc, t + 1)
      | some '\\' =>
        match charAt s (t + 1) with
        | none => .error ⟨"Unterminated string starting at".toList, s, begin_⟩
        | some esc =>
          if esc == 'u' then
            match charAt s (t + 2), charAt s (t + 3),
                charAt s (t + 4), charAt s (t + 5) with
            | some a, some b, some c, some d =>
              match hexVal a, hexVal b, hexVal c, hexVal d with
              | some va, some vb, some vc, some vd =>
                let cp := ((va * 16 + vb) * 16 + vc) * 16 + vd
                scanStringGo s begin_ fuel (t + 6) (acc ++ [Char.ofNat cp])
              | _, _, _, _ =>
                .error ⟨"Invalid \\uXXXX escape".toList, s, t + 2⟩
            | _, _, _, _ =>
              .error ⟨"Invalid \\uXXXX escape".toList, s, t + 2⟩
          else
            match backslashChar esc with
            | some c => scanStringGo s begin_ fuel (t + 2) (acc ++ [c])
            | none => .error ⟨"Invalid \\escape".toList, s, t + 1⟩
      | _ =>
        -- a control character in strict mode
        .error ⟨"Invalid control character at".toList, s, t + 1⟩

/-- Modelled from the spec: `py_scanstring(s, start)`; `start` is the index
of the character after the opening quote. -/
def scanString (s : List Char) (start : Nat) : Except JErr (List Char × Nat) :=
  scanStringGo s (start - 1) (s.length + 1) start []

/-- `nextchar = s[end:end+1]; if nextchar in _ws: end = _w(s, end+1).end();
nextchar = s[end:end+1]` — the whitespace probe CPython's array/object
parsers run before looking at a delimiter.  Returns the probed character
(`none` for out of range) and the updated index. -/
def probeWS (s : List Char) (i : Nat) : Option Char × Nat :=
  match charAt s i with
  | none => (none, i)
  | some c =>
    if jsonWS c then
      let w := skipWS s (i + 1)
      (charAt s w, w)
    else (some c, i)

/-- `try: if s[end] in _ws: end += 1; if s[end] in _ws: end = _w(s, end+1).end()
except IndexError: pass` — the whitespace fast path CPython's array/object
parsers run after a comma or colon. -/
def fastWS (s : List Char) (i : Nat) : Nat :=
  match charAt s i with
  | none => i
  | some c =>
    if jsonWS c then
      match charAt s (i + 1) with
      | none => i + 1
      | some c2 => if jsonWS c2 then skipWS s (i + 2) else i + 1
    else i

/-- A pending call of the external parser's mutually recursive scanners:
`scan` is `_scan_once`, `arrStart`/`arrItems` are the entry and the element
loop of `JSONArray`, `objStart`/`objItems` the entry and the member loop of
`JSONObject`.  A single tagged function keeps the recursion structural in
the fuel, so that the kernel can evaluate it. -/
inductive PCall where
  | scan : Nat → PCall
  | arrStart : Nat → PCall
  | arrItems : Nat → List JValue → PCall
  | objStart : Nat → PCall
  | objItems : Nat → List (List Char × JValue) → PCall

/-- Modelled from the spec: the external single-document parser's
`_scan_once(s, idx)` together with `JSONArray` and `JSONObject` (CPython
`json.scanner.py_make_scanner` / `json.decoder` with default hooks).
`fuel` bounds the recursion depth; `rawDecode` supplies more than any
document can consume. -/
def parseGo (s : List Char) : Nat → PCall → Except JErr (JValue × Nat)
  | 0, c =>
    let i := match c with
      | .scan idx => idx | .arrStart e0 => e0 | .arrItems pos _ => pos
      | .objStart e0 => e0 | .objItems pos _ => pos
    .error ⟨"fuel exhausted".toList, s, i⟩
  | fuel + 1, .scan idx =>
    match charAt s idx with
    | none => .error ⟨"Expecting value".toList, s, idx⟩
    | some c =>
      if c == '"' then
        match scanString s (idx + 1) with
        | .error e => .error e
        | .ok (str, e) => .ok (.jstr str, e)
      else if c == '{' then parseGo s fuel (.objStart (idx + 1))
      else if c == '[' then parseGo s fuel (.arrStart (idx + 1))
      else if c == 'n' && sliceEq s idx "null".toList then
        .ok (.jnull, idx + 4)
      else if c == 't' && sliceEq s idx "true".toList then
        .ok (.jbool true, idx + 4)
      else if c == 'f' && sliceEq s idx "false".toList then
        .ok (.jbool false, idx + 5)
      else
        match matchNumber s idx with
        | some (isFloat, e) =>
          let lex := (s.drop idx).take (e - idx)
          .ok (if isFloat then .jfloat lex else .jint (intOfLexeme lex), e)
        | none =>
          if c == 'N' && sliceEq s idx "NaN".toList then
            .ok (.jfloat "NaN".toList, idx + 3)
          else if c == 'I' && sliceEq s idx "Infinity".toList then
            .ok (.jfloat "Infinity".toList, idx + 8)
          else if c == '-' && sliceEq s idx "-Infinity".toList then
            .ok (.jfloat "-Infinity".toList, idx + 9)
          else .error ⟨"Expecting value".toList, s, idx⟩
  | fuel + 1, .arrStart e0 =>
    -- CPython `JSONArray` up to the first element; `e0` is just past `[`
    let (nc, e1) := probeWS s e0
    if nc == some ']' then .ok (.jarr [], e1 + 1)
    else parseGo s fuel (.arrItems e1 [])
  | fuel + 1, .arrItems pos acc =>
    -- the element loop of CPython `JSONArray`
    match parseGo s fuel (.scan pos) with
    | .error e => .error e
    | .ok (v, e1) =>
      let acc := acc ++ [v]
      let (nc, e2) := probeWS s e1
      let e3 := e2 + 1
      if nc == some ']' then .ok (.jarr acc, e3)
      else if nc != some ',' then
        .error ⟨"Expecting ',' delimiter".toList, s, e3 - 1⟩
      else parseGo s fuel (.arrItems (fastWS s e3) acc)
  | fuel + 1, .objStart e0 =>
    -- CPython `JSONObject` up to the first key; `e0` is just past `{`.
    -- The default hooks build a `dict`; the model keeps the pair list (no
    -- claim input repeats a key, where the two differ).
    let nc0 := charAt s e0
    if nc0 == some '"' then parseGo s fuel (.objItems (e0 + 1) [])
    else
      let (nc, e1) :=
        match nc0 with
        | some c => if jsonWS c then (charAt s (skipWS s e0), skipWS s e0)
                    else (nc0, e0)
        | none => (none, e0)
      if nc == some '}' then .ok (.jobj [], e1 + 1)
      else if nc != some '"' then
        .error ⟨"Expecting property name enclosed in double quotes".toList,
                s, e1⟩
      else parseGo s fuel (.objItems (e1 + 1) [])
  | fuel + 1, .objItems pos acc =>
    -- the member loop of CPython `JSONObject`; `pos` is just past the
    -- opening quote of the next key
    match scanString s pos with
    | .error e => .error e
    | .ok (key, e1) =>
      let colon? : Except JErr Nat :=
        if charAt s e1 == some ':' then .ok e1
        else
          let w := skipWS s e1
          if charAt s w == some ':' then .ok w
          else .error ⟨"Expecting ':' delimiter".toList, s, w⟩
      match colon? with
      | .error e => .error e
      | .ok colon =>
        match parseGo s fuel (.scan (fastWS s (colon + 1))) with
        | .error e => .error e
        | .ok (v, e4) =>
          let acc := acc ++ [(key, v)]
          let (nc, e5) := probeWS s e4
          let e6 := e5 + 1
          if nc == some '}' then .ok (.jobj acc, e6)
          else if nc != some ',' then
            .error ⟨"Expecting ',' delimiter".toList, s, e6 - 1⟩
          else
            let e7 := skipWS s e6
            let nc2 := charAt s e7
            let e8 := e7 + 1
            if nc2 != some '"' then
              .error
                ⟨"Expecting property name enclosed in double quotes".toList,
                 s, e8 - 1⟩
            else parseGo s fuel (.objItems e8 acc)

/-- Modelled from the spec: the external single-document parser,
`JSONDecoder.raw_decode(s, idx)` — it either returns the decoded value and
the offset immediately following it, or fails with a structured decode
error carrying a message and the offset at which parsing stopped. -/
def rawDecode (s : List Char) (idx : Nat) : Except JErr (JValue × Nat) :=
  parseGo s (4 * s.length + 8) (.scan idx)

/-! ### Separator policy (`jsonstream.py` lines 141-159) -/

/-- Python `document.startswith(sep, pos)`: true iff `pos + len(sep) ≤
len(document)` and the characters of `document` from `pos` on begin with
`sep` (CPython returns `False` whenever `pos + len(sep) > len(document)`,
also for the empty prefix). -/
def pyStartsWith (document : List Char) (sep : List Char) (pos : Nat) : Bool :=
  pos + sep.length ≤ document.length &&
    ((document.drop pos).take sep.length) == sep

/-- `next_position_by_separator(separator, document, pos)`.  The raised
`ValueError` message is Python's `f"Expected {separator!r} delimiter"` with
the repr rendered as a single-quoted literal (exact for separators without
quotes or escapes, which covers every separator in this development). -/
def next_position_by_separator (separator document : List Char) (pos : Nat) :
    Except Failure (Option Nat) :=
  if pyStartsWith document separator pos then
    .ok (some (pos + separator.length))
  else if pos = document.length then
    .ok none
  else
    .error (.valueErr ("Expected ".toList ++ '\'' :: separator ++
      '\'' :: " delimiter".toList))

/-- `next_position_by_non_whitespace(document, pos)`:
`NOT_WHITESPACE.search(document, pos)` returning the match start, with
`\S` modelled over ASCII (`isPySpace`). -/
def next_position_by_non_whitespace (document : List Char) (pos : Nat) :
    Option Nat :=
  match (document.drop pos).findIdx? (fun c => !isPySpace c) with
  | some k => some (pos + k)
  | none => none

/-- `get_first_pos_and_next_pos_func(separator)` packaged as data: the
separator spec (`none` = whitespace mode).  The whitespace variant pairs
with a first position of `None`, the literal variant with `0`. -/
def firstPos (sep? : Option (List Char)) : Option Nat :=
  match sep? with
  | none => none
  | some _ => some 0

/-- The next-position helper picked by `get_first_pos_and_next_pos_func`. -/
def nextPosHelper (sep? : Option (List Char)) (document : List Char)
    (pos : Nat) : Except Failure (Option Nat) :=
  match sep? with
  | none => .ok (next_position_by_non_whitespace document pos)
  | some sep => next_position_by_separator sep document pos

/-! ### The retry classifier (`DecodeStream._match_error`, lines 300-345) -/

/-- The message literals of `_match_error`'s `error_message_pattern` (with
the `[,:]` character class expanded) and the `"Expecting"` test. -/
def MSG_UNTERMINATED : List Char := "Unterminated string starting at".toList

def MSG_EXPECTING_VALUE : List Char := "Expecting value".toList

def MSG_EXPECTING_PROP : List Char :=
  "Expecting property name enclosed in double quotes".toList

def MSG_EXPECTING_COMMA : List Char := "Expecting ',' delimiter".toList

def MSG_EXPECTING_COLON : List Char := "Expecting ':' delimiter".toList

def MSG_EXPECTING : List Char := "Expecting".toList

/-- `re.match(error_message_pattern, ex.msg)` — the alternation matches at
the start of the message. -/
def matchesErrorPattern (msg : List Char) : Bool :=
  List.isPrefixOf MSG_UNTERMINATED msg ||
  List.isPrefixOf MSG_EXPECTING_VALUE msg ||
  List.isPrefixOf MSG_EXPECTING_PROP msg ||
  List.isPrefixOf MSG_EXPECTING_COMMA msg ||
  List.isPrefixOf MSG_EXPECTING_COLON msg

/-- `DecodeStream._match_error(ex)`: would new data be useful?  The
`ex.doc[ex.pos-1]` lookup reproduces Python's negative-index wrap-around
when `ex.pos == 0` (then `doc[-1]` is the last character).  The comparison
`ex.pos == len(ex.doc) - 1` over Python ints is rendered as
`ex.pos + 1 == ex.doc.length` (equivalent for all `len ≥ 0`). -/
def match_error (ex : JErr) : Bool :=
  let m := matchesErrorPattern ex.msg
  if m && List.isPrefixOf MSG_EXPECTING ex.msg then
    decide (ex.pos = ex.doc.length) ||
    (decide (ex.pos + 1 = ex.doc.length) &&
      charAt ex.doc ex.pos == some '.' &&
      ((if ex.pos = 0 then ex.doc.getLast? else charAt ex.doc (ex.pos - 1)).any
        Char.isDigit)) ||
    (List.isPrefixOf MSG_EXPECTING_VALUE ex.msg &&
      decide (ex.doc.length - ex.pos < MAX_KEYWORD_LEN) &&
      KEYWORDS.any (fun kw => List.isPrefixOf (ex.doc.drop ex.pos) kw))
  else m

/-! ### The incremental decode engine (`DecodeStream`, lines 184-353) -/

/-- The engine's immutable configuration: separator spec, read quantum
(`bufsize`) and maximum buffer size (`none` = `float("inf")`, the
default). -/
structure Cfg where
  sep? : Option (List Char)
  bufsize : Nat
  maxBufsize : Option Nat

/-- The engine's mutable state: `stream` is the not-yet-read tail of the
source (a `read n` yields its first `n` characters), `buffer` is
`self.partial_doc`, `pos` is `self.pos`, `streamOffset` is
`self.stream_offset`. -/
structure DSState where
  stream : List Char
  buffer : List Char
  pos : Nat
  streamOffset : Nat
  deriving DecidableEq

/-- `DecodeStream._try_read(remaining_buffer)`: reads new data and adds it
to any unparsed data, returning whether new data was read, or raising when
the maximum buffer size is exceeded.  Every call site passes a suffix of
`buffer` (so the `stream_offset` update, Python int arithmetic, stays in
`Nat`). -/
def try_read (cfg : Cfg) (st : DSState) (rem : List Char) :
    Except Failure (Bool × DSState) :=
  let toRead? : Except Failure Nat :=
    match cfg.maxBufsize with
    | some m =>
      if rem.length + cfg.bufsize > m then
        if m ≤ rem.length then
          .error (.valueErr "max buffer size exceeded".toList)
        else .ok (m - rem.length)
      else .ok cfg.bufsize
    | none => .ok cfg.bufsize
  match toRead? with
  | .error f => .error f
  | .ok toRead =>
    let new := st.stream.take toRead
    .ok (!new.isEmpty,
      { stream := st.stream.drop toRead
        buffer := rem ++ new
        pos := 0
        streamOffset := st.streamOffset + (st.buffer.length - rem.length) })

/-- `DecodeStream.next_pos()`: read enough data from the stream until the
start of the next object is found (`ok (true, _)`), the delimiter check
fails (`error`), or the stream is empty (`ok (false, _)`).  Call sites pass
`st.stream.length + 1` as fuel, which is always sufficient (each iteration
that continues has consumed at least one character from the stream). -/
def nextPosLoop (cfg : Cfg) : Nat → DSState → Except Failure (Bool × DSState)
  | 0, _ => .error .fuelExhausted
  | fuel + 1, st =>
    match nextPosHelper cfg.sep? st.buffer st.pos with
    | .error f => .error f
    | .ok (some newPos) => .ok (true, { st with pos := newPos })
    | .ok none =>
      match try_read cfg st [] with
      | .error f => .error f
      | .ok (true, st') => nextPosLoop cfg fuel st'
      | .ok (false, st') => .ok (false, st')

/-- `isinstance(obj, self.number_types)` with the default hooks:
`number_types = (int, float)`. -/
def isNumber : JValue → Bool
  | .jint _ => true
  | .jfloat _ => true
  | _ => false

/-- The two control points of the `while True:` body of
`_decode_stream_generator`: `.decode` is the top of the loop (about to call
`raw_decode`), `.yielded v newPos` is the point after a parse of `v` ending
at `newPos` was accepted (about to run `self.pos = new_pos; yield obj` and
look for the next object). -/
inductive LoopPoint where
  | decode : LoopPoint
  | yielded : JValue → Nat → LoopPoint

/-- The `while True:` loop of `DecodeStream._decode_stream_generator`
(lines 230-262), returning the values yielded and `none` for a clean end or
`some f` when the iteration raised `f`.  `fuel` only bounds the number of
loop iterations; every run below receives ample fuel. -/
def loopGo (cfg : Cfg) : Nat → LoopPoint → DSState →
    List JValue × Option Failure
  | 0, _, _ => ([], some .fuelExhausted)
  | fuel + 1, .decode, st =>
    match rawDecode st.buffer st.pos with
    | .error ex =>
      if match_error ex then
        match try_read cfg st (st.buffer.drop st.pos) with
        | .error f => ([], some f)
        | .ok (true, st') => loopGo cfg fuel .decode st'
        | .ok (false, st') => ([], some (.decodeErr ex (some st'.streamOffset)))
      else ([], some (.decodeErr ex (some st.streamOffset)))
    | .ok (v, newPos) =>
      if newPos + 1 ≥ st.buffer.length && isNumber v then
        match try_read cfg st (st.buffer.drop st.pos) with
        | .error f => ([], some f)
        | .ok (true, st') => loopGo cfg fuel .decode st'
        | .ok (false, st') => loopGo cfg fuel (.yielded v newPos) st'
      else loopGo cfg fuel (.yielded v newPos) st
  | fuel + 1, .yielded v newPos, st =>
    let st1 := { st with pos := newPos }
    match nextPosLoop cfg (st1.stream.length + 1) st1 with
    | .error f => ([v], some f)
    | .ok (false, _) => ([v], none)
    | .ok (true, st2) =>
      let rest := loopGo cfg fuel .decode st2
      (v :: rest.1, rest.2)

/-- Loop fuel that every concrete run below stays well inside. -/
def totalFuel (src : List Char) : Nat := 4 * src.length + 16

/-- `DecodeStream._decode_stream_generator` from the top: the initial
position resolution (whitespace mode starts with `pos = None`; literal
mode starts at `pos = 0` and first checks the stream holds any data),
then the main loop. -/
def genStart (cfg : Cfg) (streamOffset0 : Nat) (src : List Char) :
    List JValue × Option Failure :=
  let st0 : DSState := ⟨src, [], 0, streamOffset0⟩
  match firstPos cfg.sep? with
  | none =>
    match nextPosLoop cfg (st0.stream.length + 1) st0 with
    | .error f => ([], some f)
    | .ok (false, _) => ([], none)
    | .ok (true, st1) => loopGo cfg (totalFuel src) .decode st1
  | some p =>
    let stp := { st0 with pos := p }
    match try_read cfg stp stp.buffer with
    | .error f => ([], some f)
    | .ok (false, _) => ([], none)
    | .ok (true, st1) => loopGo cfg (totalFuel src) .decode st1

/-- Iterating `load(fp, ...)` over a source whose unread content is `src`,
with `stream_offset = 0`. -/
def runLoad (cfg : Cfg) (src : List Char) : List JValue × Option Failure :=
  genStart cfg 0 src

/-! ### The non-streaming path (`decode_stacked` and `loads`,
lines 83-120 and 162-181) -/

/-- The `while True:` loop of `decode_stacked`: decode a document at `pos`,
yield it, ask the separator policy for the next start.  Each iteration
consumes at least one character, so `document.length + 1` fuel always
suffices. -/
def decodeStackedLoop (sep? : Option (List Char)) (document : List Char) :
    Nat → Nat → List JValue × Option Failure
  | 0, _ => ([], some .fuelExhausted)
  | fuel + 1, pos =>
    match rawDecode document pos with
    | .error ex => ([], some (.decodeErr ex none))
    | .ok (obj, pos1) =>
      match nextPosHelper sep? document pos1 with
      | .error f => ([obj], some f)
      | .ok none => ([obj], none)
      | .ok (some pos2) =>
        let rest := decodeStackedLoop sep? document fuel pos2
        (obj :: rest.1, rest.2)

/-- `decode_stacked(document, decoder, next_pos, pos)` with the
`(next_pos, pos)` pair produced by `get_first_pos_and_next_pos_func`:
an empty document yields nothing; in whitespace mode (`pos is None`) the
first object's start is scanned for, and finding none yields nothing. -/
def decode_stacked (sep? : Option (List Char)) (document : List Char) :
    List JValue × Option Failure :=
  if document.isEmpty then ([], none)
  else
    match firstPos sep? with
    | some p => decodeStackedLoop sep? document (document.length + 1) p
    | none =>
      match next_position_by_non_whitespace document 0 with
      | none => ([], none)
      | some p => decodeStackedLoop sep? document (document.length + 1) p

/-- The kinds of value Python callers hand to `loads`: a `str`, a `bytes`,
a `bytearray`, or anything else (carrying its type name). -/
inductive PyInput where
  | pstr : List Char → PyInput
  | pbytes : List Nat → PyInput
  | pbytearray : List Nat → PyInput
  | pother : List Char → PyInput

/-- Strict UTF-8 decoding of a byte sequence (Python `bytes.decode("utf8")`):
rejects truncated sequences, overlong encodings, surrogates and code points
above U+10FFFF.  `fuel ≥ length` always suffices (each step consumes at
least one byte). -/
def utf8DecodeGo : Nat → List Nat → Option (List Char)
  | _, [] => some []
  | 0, _ :: _ => none
  | fuel + 1, b :: bs =>
    if b < 0x80 then
      (utf8DecodeGo fuel bs).map (fun cs => Char.ofNat b :: cs)
    else if b < 0xC2 then none
    else if b < 0xE0 then
      match bs with
      | c1 :: bs' =>
        if 0x80 ≤ c1 && c1 < 0xC0 then
          (utf8DecodeGo fuel bs').map
            (fun cs => Char.ofNat ((b - 0xC0) * 0x40 + (c1 - 0x80)) :: cs)
        else none
      | _ => none
    else if b < 0xF0 then
      match bs with
      | c1 :: c2 :: bs' =>
        let lo1 := if b == 0xE0 then 0xA0 else 0x80
        let hi1 := if b == 0xED then 0x9F else 0xBF
        if lo1 ≤ c1 && c1 ≤ hi1 && 0x80 ≤ c2 && c2 < 0xC0 then
          (utf8DecodeGo fuel bs').map (fun cs =>
            Char.ofNat ((b - 0xE0) * 0x1000 + (c1 - 0x80) * 0x40 +
              (c2 - 0x80)) :: cs)
        else none
      | _ => none
    else if b < 0xF5 then
      match bs with
      | c1 :: c2 :: c3 :: bs' =>
        let lo1 := if b == 0xF0 then 0x90 else 0x80
        let hi1 := if b == 0xF4 then 0x8F else 0xBF
        if lo1 ≤ c1 && c1 ≤ hi1 && 0x80 ≤ c2 && c2 < 0xC0 &&
            0x80 ≤ c3 && c3 < 0xC0 then
          (utf8DecodeGo fuel bs').map (fun cs =>
            Char.ofNat ((b - 0xF0) * 0x40000 + (c1 - 0x80) * 0x1000 +
              (c2 - 0x80) * 0x40 + (c3 - 0x80)) :: cs)
        else none
      | _ => none
    else none

/-- `bs.decode("utf8")`. -/
def utf8Decode (bs : List Nat) : Option (List Char) :=
  utf8DecodeGo bs.length bs

/-- The byte-order mark U+FEFF. -/
def bomChar : Char := Char.ofNat 0xFEFF

/-- `loads(s, separator=...)` (lines 83-120, default hooks): the input-type
gate — BOM rejection for `str`, `TypeError` for unsupported types, UTF-8
decoding for `bytes`/`bytearray` — followed by `decode_stacked`. -/
def loads (sep? : Option (List Char)) (input : PyInput) :
    List JValue × Option Failure :=
  match input with
  | .pstr s =>
    if s.head? == some bomChar then
      ([], some (.decodeErr
        ⟨"Unexpected UTF-8 BOM (decode using utf-8-sig)".toList, s, 0⟩ none))
    else decode_stacked sep? s
  | .pbytes bs | .pbytearray bs =>
    match utf8Decode bs with
    | none => ([], some .unicodeErr)
    | some s => decode_stacked sep? s
  | .pother typeName =>
    ([], some (.typeErr ("the JSON object must be str, bytes or bytearray, not ".toList
      ++ typeName)))

/-! ### Construction (`DecodeStream.__init__`, lines 184-212) -/

/-- `DecodeStream.__init__` (with default hooks): stores the configuration
and raises `ValueError` when `bufsize < 1`.  The constructor never reads
from the source, which the model reflects by not taking the source at
all. -/
def mkDecodeStream (bufsize : Int) (maxBufsize : Option Nat)
    (sep? : Option (List Char)) : Except Failure Cfg :=
  if bufsize < 1 then .error (.valueErr "expect positive value for bufsize".toList)
  else .ok ⟨sep?, bufsize.toNat, maxBufsize⟩

/-- `list(load(fp, separator=..., bufsize=..., max_bufsize=...))`: the
constructor's validation, then the generator. -/
def loadChecked (bufsize : Int) (maxBufsize : Option Nat)
    (sep? : Option (List Char)) (src : List Char) :
    List JValue × Option Failure :=
  match mkDecodeStream bufsize maxBufsize sep? with
  | .error f => ([], some f)
  | .ok cfg => runLoad cfg src

/-! ### Spec-side definitions used by the theorems -/

/-- The separator text occurs in `document` starting exactly at `pos`. -/
def SepOccursAt (sep document : List Char) (pos : Nat) : Prop :=
  ∃ pre post, document = pre ++ sep ++ post ∧ pre.length = pos

/-- The error-kind taxonomy of the spec's retry heuristic. -/
inductive SpecKind where
  | unterminatedString : SpecKind
  | expectingValue : SpecKind
  | expectingPropertyName : SpecKind
  | expectingDelimiter : SpecKind
  deriving DecidableEq

/-- The kind of a decode error, read off its message (the code carries the
classification in the message text, matched at the start as `re.match`
does). -/
def specKind? (msg : List Char) : Option SpecKind :=
  if List.isPrefixOf MSG_UNTERMINATED msg then
    some .unterminatedString
  else if List.isPrefixOf MSG_EXPECTING_VALUE msg then
    some .expectingValue
  else if List.isPrefixOf MSG_EXPECTING_PROP msg then
    some .expectingPropertyName
  else if List.isPrefixOf MSG_EXPECTING_COMMA msg ||
      List.isPrefixOf MSG_EXPECTING_COLON msg then
    some .expectingDelimiter
  else none

/-- C2's clause (ii): the reported position is one unit before the end of
the buffered data, with a decimal point at the last buffered position
immediately preceded by a digit. -/
def floatSplitEdge (ex : JErr) : Bool :=
  decide (ex.pos + 1 = ex.doc.length) && charAt ex.doc ex.pos == some '.' &&
    decide (1 ≤ ex.pos) && (charAt ex.doc (ex.pos - 1)).any Char.isDigit

/-- C2's clause (iii) exactly as the claim words it: the unparsed remainder
is a strict prefix of some known keyword, of length up to the longest known
keyword. -/
def strictKeywordEdge (ex : JErr) : Bool :=
  decide (ex.doc.length - ex.pos ≤ MAX_KEYWORD_LEN) &&
    KEYWORDS.any (fun kw => List.isPrefixOf (ex.doc.drop ex.pos) kw &&
      decide (ex.doc.drop ex.pos ≠ kw))

/-- The retry classifier exactly as claim C2 states it: true precisely for
the four boundary-sensitive kinds, with the expecting-* kinds additionally
at buffer end, at the float-split edge, or (for expecting-a-value) with a
strict keyword prefix as remainder. -/
def claimRetriable (ex : JErr) : Bool :=
  match specKind? ex.msg with
  | some .unterminatedString => true
  | some k =>
    decide (ex.pos = ex.doc.length) || floatSplitEdge ex ||
      (decide (k = SpecKind.expectingValue) && strictKeywordEdge ex)
  | none => false

/-- Clause (iii) as the code implements it: the remainder is strictly
shorter than the longest keyword and is a — possibly complete — prefix of
some keyword. -/
def amendedKeywordEdge (ex : JErr) : Bool :=
  decide (ex.doc.length - ex.pos < MAX_KEYWORD_LEN) &&
    KEYWORDS.any (fun kw => List.isPrefixOf (ex.doc.drop ex.pos) kw)

/-- Claim C2 with clause (iii) amended to match the code. -/
def amendedRetriable (ex : JErr) : Bool :=
  match specKind? ex.msg with
  | some .unterminatedString => true
  | some k =>
    decide (ex.pos = ex.doc.length) || floatSplitEdge ex ||
      (decide (k = SpecKind.expectingValue) && amendedKeywordEdge ex)
  | none => false

/-- The outcome is a `JSONDecodeError` with message `Expecting value`
whose stream-offset-corrected global position is `g` (in particular the
outcome is not a delimiter-mismatch `ValueError`). -/
def isExpectingValueAtGlobal (o : Option Failure) (g : Nat) : Bool :=
  match o with
  | some (.decodeErr ex (some off)) =>
    decide (ex.msg = MSG_EXPECTING_VALUE) && decide (ex.pos + off = g)
  | _ => false

/-! ## Theorems -/

/-! ### C6 — the literal separator policy -/

theorem sepOccursAt_iff (sep document : List Char) (pos : Nat) :
    SepOccursAt sep document pos ↔ pyStartsWith document sep pos = true := by
  constructor
  · rintro ⟨pre, post, rfl, rfl⟩
    simp only [pyStartsWith, Bool.and_eq_true, decide_eq_true_eq, beq_iff_eq]
    constructor
    · simp [List.length_append]
    · rw [List.append_assoc, List.drop_left, List.take_left]
  · intro h
    simp only [pyStartsWith, Bool.and_eq_true, decide_eq_true_eq,
      beq_iff_eq] at h
    obtain ⟨hlen, htake⟩ := h
    refine ⟨document.take pos, (document.drop pos).drop sep.length, ?_, ?_⟩
    · conv_lhs => rw [← List.take_append_drop pos document,
        ← List.take_append_drop sep.length (document.drop pos)]
      rw [htake, List.append_assoc]
    · rw [List.length_take]
      omega

/-- C6: for every document, separator string and position, the literal
separator policy `next_position_by_separator` returns `pos + len(separator)`
when the separator text occurs in the document starting exactly at `pos`;
returns `None` when `pos` equals the document length (and the separator is
not present there); and otherwise raises a delimiter-expected `ValueError`.
It is a pure function of its arguments (modelled directly as a Lean
function), modifying nothing. -/
theorem C6_separator_policy (sep document : List Char) (pos : Nat) :
    (SepOccursAt sep document pos →
      next_position_by_separator sep document pos =
        .ok (some (pos + sep.length)))
    ∧ (¬ SepOccursAt sep document pos → pos = document.length →
      next_position_by_separator sep document pos = .ok none)
    ∧ (¬ SepOccursAt sep document pos → pos ≠ document.length →
      next_position_by_separator sep document pos =
        .error (.valueErr ("Expected ".toList ++ '\'' :: sep ++
          '\'' :: " delimiter".toList))) := by
  refine ⟨fun h => ?_, fun h hp => ?_, fun h hp => ?_⟩
  · rw [sepOccursAt_iff] at h
    simp [next_position_by_separator, h]
  · rw [sepOccursAt_iff] at h
    simp only [Bool.not_eq_true] at h
    subst hp
    simp [next_position_by_separator, h]
  · rw [sepOccursAt_iff] at h
    simp only [Bool.not_eq_true] at h
    simp [next_position_by_separator, h, hp]

theorem C6_separator_policy_witness :
    next_position_by_separator [','] "a,b".toList 1 = .ok (some 2) ∧
    next_position_by_separator [','] "a,b".toList 3 = .ok none ∧
    next_position_by_separator [','] "a,b".toList 2 =
      .error (.valueErr ("Expected ".toList ++ '\'' :: [','] ++
        '\'' :: " delimiter".toList)) :=
  ⟨(C6_separator_policy [','] "a,b".toList 1).1
      ⟨"a".toList, "b".toList, by decide, by decide⟩,
   (C6_separator_policy [','] "a,b".toList 3).2.1
      (by rw [sepOccursAt_iff]; decide) (by decide),
   (C6_separator_policy [','] "a,b".toList 2).2.2
      (by rw [sepOccursAt_iff]; decide) (by decide)⟩

/-! ### C4 — the refill respects the maximum buffer size -/

/-- C4: with a finite `max_bufsize = m`, every `_try_read` that returns
normally leaves the buffer no longer than `m`; when the remaining tail plus
the read quantum would exceed `m` (but the tail does not yet fill the
bound), the read request is shrunk to exactly `m - len(tail)`; when the
tail already fills the bound the refill raises the fatal
`max buffer size exceeded` `ValueError` without reading (the result is
independent of the stream); and the main loop never retries that error:
it surfaces it at once. -/
theorem C4_refill_bounded (cfg : Cfg) (m : Nat) (st : DSState)
    (rem : List Char) (hm : cfg.maxBufsize = some m) :
    (∀ flag st', try_read cfg st rem = .ok (flag, st') →
        st'.buffer.length ≤ m)
    ∧ (rem.length + cfg.bufsize > m → rem.length < m →
        try_read cfg st rem =
          .ok (!(st.stream.take (m - rem.length)).isEmpty,
            { stream := st.stream.drop (m - rem.length)
              buffer := rem ++ st.stream.take (m - rem.length)
              pos := 0
              streamOffset :=
                st.streamOffset + (st.buffer.length - rem.length) }))
    ∧ (rem.length + cfg.bufsize > m → m ≤ rem.length →
        try_read cfg st rem =
          .error (.valueErr "max buffer size exceeded".toList))
    ∧ (∀ fuel ex f, rawDecode st.buffer st.pos = .error ex →
        match_error ex = true →
        try_read cfg st (st.buffer.drop st.pos) = .error f →
        loopGo cfg (fuel + 1) .decode st = ([], some f)) := by
  refine ⟨?_, fun h1 h2 => ?_, fun h1 h2 => ?_, fun fuel ex f hd hme ht => ?_⟩
  · intro flag st' hok
    by_cases h1 : rem.length + cfg.bufsize > m
    · by_cases h2 : m ≤ rem.length
      · simp [try_read, hm, h1, h2] at hok
      · simp only [try_read, hm, if_pos h1, if_neg h2] at hok
        obtain ⟨-, rfl⟩ := hok
        simp only [List.length_append, List.length_take]
        omega
    · simp only [try_read, hm, if_neg h1] at hok
      obtain ⟨-, rfl⟩ := hok
      simp only [List.length_append, List.length_take]
      omega
  · have h2' : ¬ m ≤ rem.length := by omega
    simp [try_read, hm, h1, h2']
  · simp [try_read, hm, h1, h2]
  · simp [loopGo, hd, hme, ht]

theorem C4_refill_bounded_witness :
    (try_read ⟨none, 1, some 6⟩ ⟨"xy".toList, "\"tiny\" ".toList, 7, 0⟩
        "\"tiny\"".toList =
      .error (.valueErr "max buffer size exceeded".toList))
    ∧ try_read ⟨none, 4, some 6⟩ ⟨"xy".toList, "abcde".toList, 0, 3⟩
        "abcde".toList =
      .ok (true, ⟨"y".toList, "abcdex".toList, 0, 3⟩) := by
  refine ⟨(C4_refill_bounded ⟨none, 1, some 6⟩ 6 _ _ rfl).2.2.1
      (by decide) (by decide), ?_⟩
  have h := (C4_refill_bounded ⟨none, 4, some 6⟩ 6
      ⟨"xy".toList, "abcde".toList, 0, 3⟩ "abcde".toList rfl).2.1
      (by decide) (by decide)
  exact h.trans rfl

/-! ### C3 — the truncated-number refill policy -/

/-- C3: whenever a single-document parse succeeds with an end position at
or within one unit of the end of the buffered data and the decoded value is
of a numeric runtime type (`int`/`float`, the default numeric type set),
the engine attempts one refill from the unconsumed tail at the current
cursor: on an actual refill (`ok (true, _)`) the parse result is discarded
and the loop re-parses from the start of the rebased buffer (the original
cursor's position); with no new data (`ok (false, _)`) it proceeds to emit
the value, and the second conjunct shows the value is emitted unchanged as
the next element of the output. -/
theorem C3_truncated_number_policy (cfg : Cfg) (fuel : Nat) (st : DSState)
    (v : JValue) (newPos : Nat)
    (hdec : rawDecode st.buffer st.pos = .ok (v, newPos))
    (hend : newPos + 1 ≥ st.buffer.length) (hnum : isNumber v = true) :
    (loopGo cfg (fuel + 1) .decode st =
      match try_read cfg st (st.buffer.drop st.pos) with
      | .error f => ([], some f)
      | .ok (true, st') => loopGo cfg fuel .decode st'
      | .ok (false, st') => loopGo cfg fuel (.yielded v newPos) st')
    ∧ ∀ st', (loopGo cfg (fuel + 1) (.yielded v newPos) st').1.head? =
        some v := by
  constructor
  · have hcond : (decide (newPos + 1 ≥ st.buffer.length) && isNumber v)
        = true := by simp [hnum, hend]
    simp only [loopGo, hdec, hcond, if_true]
  · intro st'
    simp only [loopGo]
    rcases nextPosLoop cfg (st'.stream.length + 1) { st' with pos := newPos }
      with f | ⟨b, st2⟩
    · rfl
    · cases b <;> rfl

theorem C3_truncated_number_policy_witness :
    (loopGo ⟨none, 1, none⟩ 3 .decode ⟨"23".toList, "1".toList, 0, 0⟩ =
      match try_read ⟨none, 1, none⟩ ⟨"23".toList, "1".toList, 0, 0⟩
          ("1".toList.drop 0) with
      | .error f => ([], some f)
      | .ok (true, st') => loopGo ⟨none, 1, none⟩ 2 .decode st'
      | .ok (false, st') =>
          loopGo ⟨none, 1, none⟩ 2 (.yielded (.jint 1) 1) st')
    ∧ ∀ st', (loopGo ⟨none, 1, none⟩ 3
        (.yielded (.jint 1) 1) st').1.head? = some (.jint 1) :=
  C3_truncated_number_policy ⟨none, 1, none⟩ 2 ⟨"23".toList, "1".toList, 0, 0⟩
    (.jint 1) 1 (by rfl) (by decide) (by rfl)

/-! ### C1 — streaming vs in-memory decoding (divergence) -/

/-- C1 fails on the code.  On `"1 2."` (whitespace separation): `loads`
yields `1, 2` and then fails with `Expecting value` at position 3 (the
bare trailing `.`), and `load` with `bufsize = 1` also fails with
`Expecting value` (locally at 1 in buffer `"2."` with stream offset 3),
but `load` with `bufsize = 4` yields `1, 2` and terminates cleanly,
silently swallowing the malformed tail: after the truncated-number refill
fails to produce data, `self.pos = new_pos` applies a cursor of the old
buffer to the rebased one, skipping the `.`.  So the same well-formed
prefix decodes identically but the error behaviour depends on the read
quantum, contradicting the claimed equivalence. -/
theorem C1_quantum_divergence :
    loads none (.pstr "1 2.".toList) =
      ([.jint 1, .jint 2],
        some (.decodeErr ⟨"Expecting value".toList, "1 2.".toList, 3⟩ none))
    ∧ runLoad ⟨none, 4, none⟩ "1 2.".toList = ([.jint 1, .jint 2], none)
    ∧ runLoad ⟨none, 1, none⟩ "1 2.".toList =
      ([.jint 1, .jint 2],
        some (.decodeErr ⟨"Expecting value".toList, "2.".toList, 1⟩
          (some 3))) :=
  ⟨rfl, rfl, rfl⟩

/-! ### C5 — stream-offset enrichment (divergence) -/

/-- C5's conclusion fails on the code.  On `"1 nul"` with `bufsize = 5`:
the whole source is buffered (zero units dropped so far), parsing fails
retriably at buffer-local position 2, the final refill attempt
`_try_read(self.partial_doc[2:])` drops 2 units and reads nothing, and
only then is the error enriched — with the updated `stream_offset = 2` —
although `ex.pos = 2` is still relative to the old buffer `"1 nul"` whose
global start is 0.  The enriched error therefore claims global position
`2 + 2 = 4`, while the true global position is 2, as `loads` on the same
text reports. -/
theorem C5_offset_enrichment_divergence :
    runLoad ⟨none, 5, none⟩ "1 nul".toList =
      ([.jint 1],
        some (.decodeErr ⟨"Expecting value".toList, "1 nul".toList, 2⟩
          (some 2)))
    ∧ loads none (.pstr "1 nul".toList) =
      ([.jint 1],
        some (.decodeErr ⟨"Expecting value".toList, "1 nul".toList, 2⟩
          none)) :=
  ⟨rfl, rfl⟩

/-! ### C10 — bufsize validation at construction -/

/-- C10: constructing a `DecodeStream` (and hence calling `load`) with
`bufsize < 1` raises `ValueError("expect positive value for bufsize")` at
construction time — before any read: the resulting failure does not depend
on the source, as the quantification over `src` shows — and for every
`bufsize ≥ 1` construction succeeds (the constructor never touches the
source; the model's constructor does not even receive it). -/
theorem C10_bufsize_validation (b : Int) (m : Option Nat)
    (sep? : Option (List Char)) :
    (b < 1 →
      mkDecodeStream b m sep? =
        .error (.valueErr "expect positive value for bufsize".toList)
      ∧ ∀ src, loadChecked b m sep? src =
        ([], some (.valueErr "expect positive value for bufsize".toList)))
    ∧ (1 ≤ b → mkDecodeStream b m sep? = .ok ⟨sep?, b.toNat, m⟩) := by
  constructor
  · intro h
    refine ⟨by simp [mkDecodeStream, h], fun src => ?_⟩
    simp [loadChecked, mkDecodeStream, h]
  · intro h
    have h' : ¬ b < 1 := by omega
    simp [mkDecodeStream, h']

theorem C10_bufsize_validation_witness :
    (mkDecodeStream 0 none none =
      .error (.valueErr "expect positive value for bufsize".toList))
    ∧ loadChecked 0 none none "[1]".toList =
      ([], some (.valueErr "expect positive value for bufsize".toList))
    ∧ mkDecodeStream 1 none none = .ok ⟨none, 1, none⟩ :=
  ⟨((C10_bufsize_validation 0 none none).1 (by decide)).1,
   ((C10_bufsize_validation 0 none none).1 (by decide)).2 "[1]".toList,
   (C10_bufsize_validation 1 none none).2 (by decide)⟩

/-! ### C9 — the input-type gate of `loads` -/

/-- C9: `loads` rejects, before any parsing of values begins, (i) every
`str` beginning with U+FEFF — with a decode error naming `utf-8-sig`, and
independently of everything after the BOM, so no value parsing is
involved — and (ii) every input that is neither `str`, `bytes` nor
`bytearray`, with a `TypeError`; a `str` not starting with the BOM is
parsed directly, and every `bytes`/`bytearray` input is decoded as UTF-8
first, parsing only the decoded text. -/
theorem C9_input_gate (sep? : Option (List Char)) :
    (∀ rest : List Char, loads sep? (.pstr (bomChar :: rest)) =
      ([], some (.decodeErr
        ⟨"Unexpected UTF-8 BOM (decode using utf-8-sig)".toList,
         bomChar :: rest, 0⟩ none)))
    ∧ (∀ s : List Char, s.head? ≠ some bomChar →
      loads sep? (.pstr s) = decode_stacked sep? s)
    ∧ (∀ name, loads sep? (.pother name) =
      ([], some (.typeErr
        ("the JSON object must be str, bytes or bytearray, not ".toList
          ++ name))))
    ∧ (∀ bs, loads sep? (.pbytes bs) =
      match utf8Decode bs with
      | none => ([], some .unicodeErr)
      | some s => decode_stacked sep? s)
    ∧ (∀ bs, loads sep? (.pbytearray bs) =
      match utf8Decode bs with
      | none => ([], some .unicodeErr)
      | some s => decode_stacked sep? s) := by
  refine ⟨fun rest => by simp [loads], fun s hs => ?_, fun name => rfl,
    fun bs => rfl, fun bs => rfl⟩
  have : (s.head? == some bomChar) = false := by
    simpa using hs
  simp [loads, this]

theorem C9_input_gate_witness :
    loads none (.pstr (bomChar :: "[1]".toList)) =
      ([], some (.decodeErr
        ⟨"Unexpected UTF-8 BOM (decode using utf-8-sig)".toList,
         bomChar :: "[1]".toList, 0⟩ none))
    ∧ loads none (.pstr "1".toList) = decode_stacked none "1".toList :=
  ⟨(C9_input_gate none).1 "[1]".toList,
   (C9_input_gate none).2.1 "1".toList (by decide)⟩

/-! ### C2 — the retry classifier -/

theorem isPrefixOf_eq_false_of_not_prefix {a msg : List Char}
    (h : ¬ a <+: msg) : List.isPrefixOf a msg = false := by
  rw [Bool.eq_false_iff]
  simp only [Ne, List.isPrefixOf_iff_prefix]
  exact h

theorem not_expecting_of_unterminated {msg : List Char}
    (h : MSG_UNTERMINATED <+: msg) : ¬ (MSG_EXPECTING <+: msg) := by
  intro hne
  rcases List.prefix_or_prefix_of_prefix hne h with hc | hc <;>
    rw [← List.isPrefixOf_iff_prefix] at hc <;> exact absurd hc (by decide)

/-- The wrap-around lookup `ex.doc[ex.pos - 1]` of the source (Python
indexes `doc[-1]` when `ex.pos == 0`) agrees with the claim's plain
"immediately preceded by a digit" reading in every case: at `ex.pos = 0`
the other conjuncts force `ex.doc = ['.']`, whose last character is no
digit. -/
theorem floatSplitEdge_eq_code (ex : JErr) :
    floatSplitEdge ex =
      (decide (ex.pos + 1 = ex.doc.length) &&
        (charAt ex.doc ex.pos == some '.') &&
        ((if ex.pos = 0 then ex.doc.getLast?
          else charAt ex.doc (ex.pos - 1)).any Char.isDigit)) := by
  rcases ex with ⟨msg, doc, pos⟩
  simp only [floatSplitEdge]
  cases pos with
  | zero =>
    rcases doc with _ | ⟨c, _ | ⟨d, tl⟩⟩
    · simp
    · by_cases hc : c = '.'
      · subst hc; rfl
      · simp [charAt, hc]
    · have h2 : ¬ (0 + 1 = (c :: d :: tl).length) := by
        simp
      simp [h2]
  | succ k =>
    have h1 : (decide (1 ≤ k + 1)) = true := by simp
    simp only [if_neg (Nat.succ_ne_zero k), Nat.succ_sub_one, h1,
      Bool.and_true, Bool.true_and]

/-- C2 as stated is false at this error value: the unparsed remainder
`"null"` is a complete keyword, not a strict prefix of any keyword, so the
claim classifies the error as terminal, yet `_match_error` returns true
(its condition is `len(doc) - pos < MAX_KEYWORD_LEN` together with
`kw.startswith(remainder)`, which a complete keyword satisfies). -/
theorem C2_counterexample :
    match_error ⟨"Expecting value".toList, "null".toList, 0⟩ = true ∧
    claimRetriable ⟨"Expecting value".toList, "null".toList, 0⟩ = false := by
  constructor <;> decide

/-- C2 amended: `_match_error ex` is true precisely when `ex`'s kind is
unterminated-string, expecting-a-value, expecting-a-property-name or
expecting-a-structural-delimiter, and additionally, for the expecting-*
kinds, the position is at buffer end, or at the float-split edge, or the
kind is expecting-a-value and the unparsed remainder is strictly shorter
than the longest known keyword and a (possibly complete) prefix of some
known keyword; every other decode error is classified terminal. -/
theorem C2_match_error_amended (ex : JErr) :
    match_error ex = amendedRetriable ex := by
  have hfe := floatSplitEdge_eq_code ex
  by_cases hU : MSG_UNTERMINATED <+: ex.msg
  · have hUb : List.isPrefixOf MSG_UNTERMINATED ex.msg = true :=
      List.isPrefixOf_iff_prefix.mpr hU
    have hE : ¬ (MSG_EXPECTING <+: ex.msg) := not_expecting_of_unterminated hU
    have hEb := isPrefixOf_eq_false_of_not_prefix hE
    simp [match_error, matchesErrorPattern, amendedRetriable, specKind?,
      hU, hUb, hE, hEb]
  · have hUb := isPrefixOf_eq_false_of_not_prefix hU
    by_cases hV : MSG_EXPECTING_VALUE <+: ex.msg
    · have hVb : List.isPrefixOf MSG_EXPECTING_VALUE ex.msg = true :=
        List.isPrefixOf_iff_prefix.mpr hV
      have hE : MSG_EXPECTING <+: ex.msg :=
        List.IsPrefix.trans (by rw [← List.isPrefixOf_iff_prefix]; decide) hV
      have hEb : List.isPrefixOf MSG_EXPECTING ex.msg = true :=
        List.isPrefixOf_iff_prefix.mpr hE
      simp [match_error, matchesErrorPattern, amendedRetriable, specKind?,
        amendedKeywordEdge, hU, hUb, hV, hVb, hE, hEb, hfe]
    · have hVb := isPrefixOf_eq_false_of_not_prefix hV
      by_cases hP : MSG_EXPECTING_PROP <+: ex.msg
      · have hPb : List.isPrefixOf MSG_EXPECTING_PROP ex.msg = true :=
          List.isPrefixOf_iff_prefix.mpr hP
        have hE : MSG_EXPECTING <+: ex.msg :=
          List.IsPrefix.trans (by rw [← List.isPrefixOf_iff_prefix]; decide) hP
        have hEb : List.isPrefixOf MSG_EXPECTING ex.msg = true :=
          List.isPrefixOf_iff_prefix.mpr hE
        simp [match_error, matchesErrorPattern, amendedRetriable, specKind?,
          hU, hUb, hV, hVb, hP, hPb, hE, hEb, hfe]
      · have hPb := isPrefixOf_eq_false_of_not_prefix hP
        by_cases hCm : MSG_EXPECTING_COMMA <+: ex.msg
        · have hCmb : List.isPrefixOf MSG_EXPECTING_COMMA ex.msg = true :=
            List.isPrefixOf_iff_prefix.mpr hCm
          have hE : MSG_EXPECTING <+: ex.msg :=
            List.IsPrefix.trans
              (by rw [← List.isPrefixOf_iff_prefix]; decide) hCm
          have hEb : List.isPrefixOf MSG_EXPECTING ex.msg = true :=
            List.isPrefixOf_iff_prefix.mpr hE
          simp [match_error, matchesErrorPattern, amendedRetriable, specKind?,
            hU, hUb, hV, hVb, hP, hPb, hCm, hCmb, hE, hEb, hfe]
        · have hCmb := isPrefixOf_eq_false_of_not_prefix hCm
          by_cases hCl : MSG_EXPECTING_COLON <+: ex.msg
          · have hClb : List.isPrefixOf MSG_EXPECTING_COLON ex.msg = true :=
              List.isPrefixOf_iff_prefix.mpr hCl
            have hE : MSG_EXPECTING <+: ex.msg :=
              List.IsPrefix.trans
                (by rw [← List.isPrefixOf_iff_prefix]; decide) hCl
            have hEb : List.isPrefixOf MSG_EXPECTING ex.msg = true :=
              List.isPrefixOf_iff_prefix.mpr hE
            simp [match_error, matchesErrorPattern, amendedRetriable,
              specKind?, hU, hUb, hV, hVb, hP, hPb, hCm, hCmb, hCl, hClb,
              hE, hEb, hfe]
          · have hClb := isPrefixOf_eq_false_of_not_prefix hCl
            simp [match_error, matchesErrorPattern, amendedRetriable,
              specKind?, hU, hUb, hV, hVb, hP, hPb, hCm, hCmb, hCl, hClb]

/-! ### C8 — empty and whitespace-only input -/

theorem nextPosNonWS_none {document : List Char}
    (h : ∀ c ∈ document, isPySpace c = true) (pos : Nat) :
    next_position_by_non_whitespace document pos = none := by
  unfold next_position_by_non_whitespace
  have hf : (document.drop pos).findIdx? (fun c => !isPySpace c) = none := by
    rw [List.findIdx?_eq_none_iff]
    intro x hx
    simp [h x (List.mem_of_mem_drop hx)]
  rw [hf]

/-- With only whitespace buffered and only whitespace left in the stream,
`next_pos` drains the source and reports that no further object starts
(`ok (false, _)`); `fuel > stream length` always suffices. -/
theorem nextPosLoop_ws_end (b : Nat) :
    ∀ fuel (st : DSState), (∀ c ∈ st.buffer, isPySpace c = true) →
      (∀ c ∈ st.stream, isPySpace c = true) → st.stream.length < fuel →
      ∃ st', nextPosLoop ⟨none, b, none⟩ fuel st = .ok (false, st') := by
  intro fuel
  induction fuel with
  | zero => intro st _ _ hlen; omega
  | succ n ih =>
    intro st hbuf hstr hlen
    simp only [nextPosLoop, nextPosHelper, nextPosNonWS_none hbuf st.pos,
      try_read]
    rcases hnew : st.stream.take b with _ | ⟨c, cs⟩
    · exact ⟨_, rfl⟩
    · have hne : ¬ (st.stream = [] ∨ b = 0) := by
        intro hc
        rcases hc with hc | hc <;> simp [hc] at hnew
      push_neg at hne
      have hb1 : 1 ≤ b := by omega
      have hs1 : 1 ≤ st.stream.length := List.length_pos.mpr hne.1
      simp only [List.isEmpty_cons, Bool.not_false]
      refine ih ⟨st.stream.drop b, [] ++ (c :: cs), 0,
          st.streamOffset + (st.buffer.length - 0)⟩ ?_ ?_ ?_
      · intro x hx
        simp only [List.nil_append] at hx
        exact hstr x (List.mem_of_mem_take (hnew ▸ hx))
      · intro x hx
        exact hstr x (List.mem_of_mem_drop hx)
      · simp only [List.length_drop]
        omega

/-- C8: every input that is empty or consists only of whitespace yields an
empty value sequence and no error, from `loads` and from `load` at every
read quantum. -/
theorem C8_whitespace_only (src : List Char)
    (h : ∀ c ∈ src, isPySpace c = true) (b : Nat) (hb : 1 ≤ b) :
    runLoad ⟨none, b, none⟩ src = ([], none)
    ∧ loads none (.pstr src) = ([], none) := by
  constructor
  · obtain ⟨st', e⟩ := nextPosLoop_ws_end b (src.length + 1)
      ⟨src, [], 0, 0⟩ (by simp) h (Nat.lt_succ_self src.length)
    simp only [runLoad, genStart, firstPos]
    rw [e]
  · cases src with
    | nil => rfl
    | cons c cs =>
      have hc := h c (by simp)
      have hcb : c ≠ bomChar := by
        intro hceq
        rw [hceq] at hc
        exact absurd hc (by decide)
      have hbom : (((c :: cs).head?) == some bomChar) = false := by
        simp [hcb]
      simp only [loads, hbom, Bool.false_eq_true, if_false]
      simp [decode_stacked, firstPos, nextPosNonWS_none h]

theorem C8_whitespace_only_witness :
    runLoad ⟨none, 1, none⟩ " \t\n ".toList = ([], none)
    ∧ loads none (.pstr " \t\n ".toList) = ([], none) :=
  C8_whitespace_only " \t\n ".toList (by decide) 1 (by decide)

/-! ### C7 — consecutive literal separators -/

theorem try_read_stream_empty (sep? : Option (List Char)) (b : Nat)
    (st : DSState) (rem : List Char) (h : st.stream = []) :
    try_read ⟨sep?, b, none⟩ st rem =
      .ok (false, ⟨[], rem, 0,
        st.streamOffset + (st.buffer.length - rem.length)⟩) := by
  simp [try_read, h]

theorem nextPosLoop_stream_empty (sep? : Option (List Char)) (b : Nat)
    (st : DSState) (h : st.stream = []) :
    nextPosLoop ⟨sep?, b, none⟩ 1 st =
      match nextPosHelper sep? st.buffer st.pos with
      | .error f => .error f
      | .ok (some np) => .ok (true, { st with pos := np })
      | .ok none =>
          .ok (false, ⟨[], [], 0, st.streamOffset + st.buffer.length⟩) := by
  simp only [nextPosLoop]
  rcases hh : nextPosHelper sep? st.buffer st.pos with f | (_ | np)
  · rfl
  · rw [try_read_stream_empty sep? b st [] h]
    simp
  · rfl

/-- Once the source is exhausted, the engine's behaviour no longer depends
on the read quantum: every further refill reads nothing, whichever
`bufsize` is configured. -/
theorem loopGo_stream_empty_bufsize_irrel (sep? : Option (List Char))
    (b₁ b₂ : Nat) : ∀ fuel mode (st : DSState), st.stream = [] →
    loopGo ⟨sep?, b₁, none⟩ fuel mode st =
      loopGo ⟨sep?, b₂, none⟩ fuel mode st := by
  intro fuel
  induction fuel with
  | zero => intro mode st h; rfl
  | succ n ih =>
    intro mode st h
    cases mode with
    | decode =>
      simp only [loopGo]
      rcases rawDecode st.buffer st.pos with ex | ⟨v, np⟩
      · rw [try_read_stream_empty sep? b₁ st _ h,
          try_read_stream_empty sep? b₂ st _ h]
      · by_cases hcond : (decide (np + 1 ≥ st.buffer.length) && isNumber v)
            = true
        · rw [try_read_stream_empty sep? b₁ st _ h,
            try_read_stream_empty sep? b₂ st _ h]
          simp only [hcond, if_true]
          exact ih (.yielded v np) _ rfl
        · simp only [Bool.not_eq_true] at hcond
          simp only [hcond, if_false]
          exact ih (.yielded v np) st h
    | yielded v np =>
      simp only [loopGo, h, List.length_nil]
      rw [nextPosLoop_stream_empty sep? b₁ _ rfl,
        nextPosLoop_stream_empty sep? b₂ _ rfl]
      rcases nextPosHelper sep? st.buffer np with f | (_ | np2)
      · rfl
      · rfl
      · simp only []
        rw [ih .decode _ rfl]

/-- With a read quantum at least the source's length, one literal-separator
run is the same as another: the first refill consumes the whole source. -/
theorem runLoad_literal_saturates (sep src : List Char) (b₁ b₂ : Nat)
    (h₁ : src.length ≤ b₁) (h₂ : src.length ≤ b₂) :
    runLoad ⟨some sep, b₁, none⟩ src = runLoad ⟨some sep, b₂, none⟩ src := by
  have e : ∀ b, src.length ≤ b →
      try_read ⟨some sep, b, none⟩ ⟨src, [], 0, 0⟩ [] =
        .ok (!src.isEmpty, ⟨[], src, 0, 0⟩) := by
    intro b hb
    simp [try_read, List.take_of_length_le hb, List.drop_eq_nil_of_le hb]
  simp only [runLoad, genStart, firstPos]
  rw [e b₁ h₁, e b₂ h₂]
  cases hsrc : src.isEmpty
  · simp only [Bool.not_false]
    exact loopGo_stream_empty_bufsize_irrel (some sep) b₁ b₂
      (totalFuel src) .decode ⟨[], src, 0, 0⟩ rfl
  · rfl

/-- C7: decoding `"[],,[]"` with literal separator `","` yields the first
`[]` and then fails with an expecting-a-value decode error — not a
delimiter-mismatch error — whose position is 3, the position immediately
following the first separator: directly in `loads`, and as
`ex.pos + stream_offset = 3` in `load` at every read quantum. -/
theorem C7_double_separator :
    (loads (some [',']) (.pstr "[],,[]".toList) =
      ([.jarr []], some (.decodeErr
        ⟨"Expecting value".toList, "[],,[]".toList, 3⟩ none)))
    ∧ ∀ b, 1 ≤ b →
        (runLoad ⟨some [','], b, none⟩ "[],,[]".toList).1 = [.jarr []]
        ∧ isExpectingValueAtGlobal
            (runLoad ⟨some [','], b, none⟩ "[],,[]".toList).2 3 = true := by
  refine ⟨rfl, fun b hb => ?_⟩
  by_cases h6 : b ≤ 6
  · interval_cases b <;> exact ⟨rfl, rfl⟩
  · have hlen : ("[],,[]".toList).length = 6 := rfl
    have := runLoad_literal_saturates [','] "[],,[]".toList b 6
      (by omega) (by omega)
    rw [this]
    exact ⟨rfl, rfl⟩

theorem C7_double_separator_witness :
    (runLoad ⟨some [','], 2, none⟩ "[],,[]".toList).1 = [.jarr []]
    ∧ isExpectingValueAtGlobal
        (runLoad ⟨some [','], 2, none⟩ "[],,[]".toList).2 3 = true :=
  C7_double_separator.2 2 (by decide)

end JsonStream
